import Mathlib

/-!
Verification development for the Computer-Use-on-Windows repository
(computer_use_demo). Shallow embedding of:
  - tools/base.py     : ToolResult, BaseTool.__call__, ToolCollection.run
  - tools/computer.py : CoordinateTranslator, IconDetector, ComputerTool
                        (repeat handling, type action, screenshot cascade)
  - loop.py           : sampling_loop iteration, image-retention filter,
                        _make_api_tool_result

Machine integers and Python floats are modelled over ℤ / ℚ; Python's
int() truncation is modelled explicitly; Python exceptions are modelled
with Except; Optional[T] with Option T.
-/

namespace ComputerUseDemo

/-! ### tools/base.py : ToolResult -/

/-- tools/base.py ToolResult: dataclass with optional output, error,
base64_image, system fields (all default None). -/
structure ToolResult where
  output : Option String := none
  error : Option String := none
  base64_image : Option String := none
  system : Option String := none
deriving Repr, DecidableEq

/-- tools/base.py ToolResult.is_success: `return self.error is None`. -/
def ToolResult.is_success (r : ToolResult) : Bool :=
  r.error.isNone

/-- tools/exceptions.py: the exception classes raised by tools, bucketed by
the except-clauses of BaseTool.__call__ (ValidationError, its ToolError
superclass — ExecutionError etc. —, and any other Exception). -/
inductive PyExc where
  | validationError (msg : String)
  | toolError (msg : String)
  | otherExc (msg : String)
deriving Repr, DecidableEq

/-- Tool keyword arguments (the `**kwargs` dict), with opaque string values. -/
abbrev ToolInput := List (String × String)

/-- A registered tool: its name, and the validate_params / execute methods,
each of which may raise (modelled with Except). -/
structure ToolImpl where
  name : String
  validate_params : ToolInput → Except PyExc Unit
  execute : ToolInput → Except PyExc ToolResult

/-- The body of the `try` block of BaseTool.__call__: validate_params
followed by execute, exceptions propagating. -/
def rawInvoke (t : ToolImpl) (kwargs : ToolInput) : Except PyExc ToolResult :=
  match t.validate_params kwargs with
  | Except.error e => Except.error e
  | Except.ok _ => t.execute kwargs

/-- The except-clauses of BaseTool.__call__: each exception class is turned
into a ToolResult with the corresponding error message. -/
def excToResult (e : PyExc) : ToolResult :=
  match e with
  | PyExc.validationError m => { error := some ("参数验证错误: " ++ m) }
  | PyExc.toolError m => { error := some ("工具执行错误: " ++ m) }
  | PyExc.otherExc m => { error := some ("未预期的错误: " ++ m) }

/-- tools/base.py BaseTool.__call__: run validate_params then execute inside
try, converting every exception into a ToolResult with error set. -/
def baseToolCall (t : ToolImpl) (kwargs : ToolInput) : ToolResult :=
  match rawInvoke t kwargs with
  | Except.ok r => r
  | Except.error e => excToResult e

/-- tools/base.py ToolCollection: `self.tools = {tool.name: tool for ...}`.
The repository registers tools with pairwise distinct names, so the
name-keyed dict is modelled as a list searched by name. -/
structure ToolCollection where
  tools : List ToolImpl

/-- Dict lookup `name in self.tools` / `self.tools[name]`. -/
def ToolCollection.lookupTool (c : ToolCollection) (name : String) : Option ToolImpl :=
  c.tools.find? (fun t => t.name == name)

/-- tools/base.py ToolCollection.run: unknown names give
ToolResult(error=f"工具 {name} 未找到"); otherwise the tool is invoked
through BaseTool.__call__. -/
def ToolCollection.run (c : ToolCollection) (name : String) (tool_input : ToolInput) :
    ToolResult :=
  match c.lookupTool name with
  | none => { error := some ("工具 " ++ name ++ " 未找到") }
  | some t => baseToolCall t tool_input

lemma excToResult_error_isSome (e : PyExc) : (excToResult e).error.isSome = true := by
  cases e <;> rfl

/-- Claim C3: for every tool name and input, ToolCollection.run returns a
ToolResult and never propagates an exception: an unregistered name yields a
ToolResult with the "tool not found" error set, a registered tool is invoked
through the BaseTool.__call__ wrapper, and whenever validation or execution
raises any exception the wrapper converts it into a ToolResult with error
set. -/
theorem C3_tool_run_never_raises (c : ToolCollection) (name : String) (input : ToolInput) :
    (c.lookupTool name = none →
      c.run name input = { error := some ("工具 " ++ name ++ " 未找到") }) ∧
    (∀ t, c.lookupTool name = some t →
      c.run name input = baseToolCall t input ∧
      ∀ e, rawInvoke t input = Except.error e →
        (c.run name input).error.isSome = true) := by
  refine ⟨fun h => ?_, fun t ht => ⟨?_, fun e he => ?_⟩⟩
  · simp [ToolCollection.run, h]
  · simp [ToolCollection.run, ht]
  · simp [ToolCollection.run, ht, baseToolCall, he, excToResult_error_isSome]

/-- A concrete collection for exercising C3: a tool whose execution raises. -/
def raisingTool : ToolImpl :=
  { name := "computer"
    validate_params := fun _ => Except.ok ()
    execute := fun _ => Except.error (PyExc.toolError "boom") }

/-- A concrete one-tool collection, as built by sampling_loop. -/
def exampleCollection : ToolCollection := { tools := [raisingTool] }

theorem C3_tool_run_never_raises_witness :
    (exampleCollection.run "missing" [] =
      { error := some ("工具 " ++ "missing" ++ " 未找到") }) ∧
    (exampleCollection.run "computer" []).error.isSome = true := by
  refine ⟨(C3_tool_run_never_raises exampleCollection "missing" []).1 (by rfl), ?_⟩
  exact ((C3_tool_run_never_raises exampleCollection "computer" []).2 raisingTool
    (by rfl)).2 (PyExc.toolError "boom") (by rfl)

/-! ### tools/computer.py : repeat handling (ComputerTool.execute) -/

/-- Python `a or b` for `a : Optional[int]` (None and 0 are falsy). -/
def pyOrInt (a : Option Int) (b : Int) : Int :=
  match a with
  | none => b
  | some x => if x = 0 then b else x

/-- tools/computer.py ComputerTool.execute:
`repeat_times = max(1, repeat or 1)`. -/
def repeat_times (repeatArg : Option Int) : Int :=
  max 1 (pyOrInt repeatArg 1)

/-- The `for _ in range(repeat_times)` loop around the input primitive:
one trace entry per primitive execution. -/
def actionTrace (repeatArg : Option Int) : List Unit :=
  List.replicate (repeat_times repeatArg).toNat ()

/-- Claim C10: the input primitive is executed at least once; when the repeat
parameter is absent, zero, or negative the action is performed exactly once,
and when repeat ≥ 1 it is performed exactly repeat times. -/
theorem C10_repeat_never_zero (repeatArg : Option Int) :
    1 ≤ (actionTrace repeatArg).length ∧
    (repeatArg = none → (actionTrace repeatArg).length = 1) ∧
    (∀ k, repeatArg = some k → k ≤ 0 → (actionTrace repeatArg).length = 1) ∧
    (∀ k, repeatArg = some k → 1 ≤ k → ((actionTrace repeatArg).length : Int) = k) := by
  rcases repeatArg with _ | k
  · refine ⟨by simp [actionTrace, repeat_times, pyOrInt], fun _ => ?_, ?_, ?_⟩
    · simp [actionTrace, repeat_times, pyOrInt]
    · intro k h; cases h
    · intro k h; cases h
  · refine ⟨?_, ?_, ?_, ?_⟩
    · simp only [actionTrace, repeat_times, pyOrInt, List.length_replicate]
      split <;> omega
    · intro h; exact absurd h (by simp)
    · intro m hm _
      cases hm
      simp only [actionTrace, repeat_times, pyOrInt, List.length_replicate]
      split <;> omega
    · intro m hm hge
      cases hm
      simp only [actionTrace, repeat_times, pyOrInt, List.length_replicate]
      split <;> omega

theorem C10_repeat_never_zero_witness :
    ((actionTrace (some 3)).length : Int) = 3 :=
  (C10_repeat_never_zero (some 3)).2.2.2 3 rfl (by norm_num)

/-! ### tools/computer.py : the `type` action result (C9) -/

/-- tools/computer.py ComputerTool._chunks: `s[i:i+n]` slices for
`i in range(0, len(s), n)`, modelled on character lists with fuel
(TYPING_GROUP_SIZE = 50 > 0, so the step is always positive). -/
def chunksGo : Nat → List Char → Nat → List (List Char)
  | 0, _, _ => []
  | _, [], _ => []
  | fuel + 1, c :: cs, n => (c :: cs).take n :: chunksGo fuel ((c :: cs).drop n) n

def pyChunks (s : List Char) (n : Nat) : List (List Char) :=
  chunksGo s.length s n

/-- tools/computer.py ComputerTool.execute, `type` action: for each repeat
and each chunk, a ToolResult(output=chunk) is accumulated; the final result
joins outputs and errors with `"".join(...)` and attaches the screenshot.
`screenshotImage` is the base64_image of the trailing take_screenshot call. -/
def typeActionResult (text : List Char) (repeatTimes : Nat)
    (screenshotImage : Option String) : ToolResult :=
  let results : List ToolResult :=
    ((List.replicate repeatTimes (pyChunks text 50)).flatten).map
      (fun c => { output := some (String.mk c) })
  { output := some (String.join (results.map (fun r => r.output.getD "")))
    error := some (String.join (results.map (fun r => r.error.getD "")))
    base64_image := screenshotImage }

lemma string_foldl_append_map_const {α : Type} (l : List α) (acc : String) :
    List.foldl (· ++ ·) acc (l.map (fun _ => "")) = acc := by
  induction l generalizing acc with
  | nil => rfl
  | cons a l ih => simpa using ih acc

lemma string_join_map_const {α : Type} (l : List α) :
    String.join (l.map (fun _ => "")) = "" := by
  simpa [String.join] using string_foldl_append_map_const l ""

/-- Claim C9 (code evaluated at the failing input): a fully successful
`type` action nevertheless returns a ToolResult whose error field is the
present empty string — not an absent error — so ToolResult.is_success
reports failure for a successful invocation, contradicting the
success ⇔ error-absent invariant. -/
theorem C9_type_action_error_present (text : List Char) (repeatTimes : Nat)
    (screenshotImage : Option String) :
    (typeActionResult text repeatTimes screenshotImage).error = some "" ∧
    (typeActionResult text repeatTimes screenshotImage).error ≠ none ∧
    (typeActionResult text repeatTimes screenshotImage).is_success = false := by
  have herr : (typeActionResult text repeatTimes screenshotImage).error = some "" := by
    show some (String.join _) = some ""
    rw [List.map_map]
    show some (String.join (List.map (fun _ => "") _)) = some ""
    rw [string_join_map_const]
  refine ⟨herr, by rw [herr]; simp, ?_⟩
  rw [ToolResult.is_success, herr]
  rfl

/-! ### tools/computer.py : CoordinateTranslator (C2, C6)

Python float arithmetic is modelled over ℚ; Python's `int(..)` (truncation
toward zero) is modelled by pyInt. -/

/-- Python `int(q)`: truncation toward zero. -/
def pyInt (q : ℚ) : ℤ :=
  if 0 ≤ q then ⌊q⌋ else -⌊-q⌋

/-- tools/computer.py CoordinateTranslator.__init__ fields. -/
structure CoordinateTranslator where
  dpi_scale : ℚ
  taskbar_offset : ℤ
  physical_width : ℚ
  physical_height : ℚ
  target_width : ℚ
  target_height : ℚ

/-- `self.x_scale = physical_width / target_width`. -/
def CoordinateTranslator.x_scale (t : CoordinateTranslator) : ℚ :=
  t.physical_width / t.target_width

/-- `self.y_scale = physical_height / target_height`. -/
def CoordinateTranslator.y_scale (t : CoordinateTranslator) : ℚ :=
  t.physical_height / t.target_height

/-- tools/computer.py CoordinateTranslator.api_to_screen. -/
def CoordinateTranslator.api_to_screen (t : CoordinateTranslator) (x y : ℤ) : ℤ × ℤ :=
  (pyInt ((x : ℚ) * t.x_scale / t.dpi_scale),
   pyInt ((y : ℚ) * t.y_scale / t.dpi_scale) + t.taskbar_offset)

/-- tools/computer.py CoordinateTranslator.screen_to_api. -/
def CoordinateTranslator.screen_to_api (t : CoordinateTranslator) (x y : ℤ) : ℤ × ℤ :=
  (pyInt ((x : ℚ) * t.dpi_scale / t.x_scale),
   pyInt (((y - t.taskbar_offset : ℤ) : ℚ) * t.dpi_scale / t.y_scale))

lemma pyInt_of_nonneg {q : ℚ} (h : 0 ≤ q) : pyInt q = ⌊q⌋ := by
  rw [pyInt, if_pos h]

/-- Truncated scale-then-unscale: for a per-axis ratio r ≥ 1 the round trip
⌊⌊x·r⌋ / r⌋ stays within 1 of x. -/
lemma floor_scale_round_trip (r : ℚ) (hr : 1 ≤ r) (x : ℤ) (hx : 0 ≤ x) :
    x - 1 ≤ ⌊(⌊(x : ℚ) * r⌋ : ℚ) / r⌋ ∧ ⌊(⌊(x : ℚ) * r⌋ : ℚ) / r⌋ ≤ x := by
  have hr0 : (0 : ℚ) < r := lt_of_lt_of_le one_pos hr
  constructor
  · have h1 : (x : ℚ) * r - 1 < (⌊(x : ℚ) * r⌋ : ℚ) := Int.sub_one_lt_floor _
    have h2 : (x : ℚ) - 1 ≤ (⌊(x : ℚ) * r⌋ : ℚ) / r := by
      rw [le_div_iff₀ hr0]
      nlinarith [h1, hr, hr0]
    have h3 : ((x - 1 : ℤ) : ℚ) ≤ (⌊(x : ℚ) * r⌋ : ℚ) / r := by
      push_cast
      linarith [h2]
    exact Int.le_floor.mpr h3
  · have h1 : (⌊(x : ℚ) * r⌋ : ℚ) ≤ (x : ℚ) * r := Int.floor_le _
    have h2 : (⌊(x : ℚ) * r⌋ : ℚ) / r ≤ (x : ℚ) := by
      rw [div_le_iff₀ hr0]; exact h1
    calc ⌊(⌊(x : ℚ) * r⌋ : ℚ) / r⌋ ≤ ⌊(x : ℚ)⌋ := Int.floor_le_floor h2
      _ = x := Int.floor_intCast x

/-- Claim C2 as stated is false: for geometries whose per-axis scale factor
physical/logical is smaller than the dpi scale, the screen grid is coarser
than the logical grid and screen_to_api ∘ api_to_screen loses more than one
unit. Concretely: dpi_scale 1, no taskbar, physical 100×100, logical
1000×1000, point (5, 5) ∈ [0, 1000)² maps to (0, 0). -/
theorem C2_round_trip_counterexample :
    (CoordinateTranslator.screen_to_api
        { dpi_scale := 1, taskbar_offset := 0, physical_width := 100,
          physical_height := 100, target_width := 1000, target_height := 1000 }
        ((CoordinateTranslator.api_to_screen
          { dpi_scale := 1, taskbar_offset := 0, physical_width := 100,
            physical_height := 100, target_width := 1000, target_height := 1000 }
          5 5).1)
        ((CoordinateTranslator.api_to_screen
          { dpi_scale := 1, taskbar_offset := 0, physical_width := 100,
            physical_height := 100, target_width := 1000, target_height := 1000 }
          5 5).2)) = (0, 0) ∧
    ¬ ((5 : ℤ) - 0 ≤ 1) := by
  constructor
  · have h1 : (CoordinateTranslator.api_to_screen
        { dpi_scale := 1, taskbar_offset := 0, physical_width := 100,
          physical_height := 100, target_width := 1000, target_height := 1000 }
        5 5) = (0, 0) := by
      rw [CoordinateTranslator.api_to_screen]
      norm_num [CoordinateTranslator.x_scale, CoordinateTranslator.y_scale, pyInt]
    rw [h1]
    rw [CoordinateTranslator.screen_to_api]
    norm_num [CoordinateTranslator.x_scale, CoordinateTranslator.y_scale, pyInt]
  · norm_num

/-- Claim C2, amended: the ±1 round-trip bound holds for every geometry with
positive dpi_scale, positive dimensions and any taskbar offset in which the
per-axis scale factor physical/logical is at least dpi_scale (true of the
repository's preset logical resolutions on the displays they target);
without that lower bound the error can exceed 1. -/
theorem C2_round_trip_within_one (t : CoordinateTranslator) (x y : ℤ)
    (hdpi : 0 < t.dpi_scale)
    (hxs : t.dpi_scale ≤ t.x_scale) (hys : t.dpi_scale ≤ t.y_scale)
    (hx0 : 0 ≤ x) (hy0 : 0 ≤ y)
    (hxw : (x : ℚ) < t.target_width) (hyh : (y : ℚ) < t.target_height) :
    (x - 1 ≤ (t.screen_to_api (t.api_to_screen x y).1 (t.api_to_screen x y).2).1 ∧
     (t.screen_to_api (t.api_to_screen x y).1 (t.api_to_screen x y).2).1 ≤ x) ∧
    (y - 1 ≤ (t.screen_to_api (t.api_to_screen x y).1 (t.api_to_screen x y).2).2 ∧
     (t.screen_to_api (t.api_to_screen x y).1 (t.api_to_screen x y).2).2 ≤ y) := by
  have hxscale : 0 < t.x_scale := lt_of_lt_of_le hdpi hxs
  have hyscale : 0 < t.y_scale := lt_of_lt_of_le hdpi hys
  have hrx : 1 ≤ t.x_scale / t.dpi_scale := (one_le_div hdpi).mpr hxs
  have hry : 1 ≤ t.y_scale / t.dpi_scale := (one_le_div hdpi).mpr hys
  have hrx0 : 0 < t.x_scale / t.dpi_scale := lt_of_lt_of_le one_pos hrx
  have hry0 : 0 < t.y_scale / t.dpi_scale := lt_of_lt_of_le one_pos hry
  -- the x component
  have hxarg : (0 : ℚ) ≤ (x : ℚ) * t.x_scale / t.dpi_scale := by positivity
  have hsx : (t.api_to_screen x y).1 = ⌊(x : ℚ) * (t.x_scale / t.dpi_scale)⌋ := by
    rw [CoordinateTranslator.api_to_screen]
    show pyInt _ = _
    rw [pyInt_of_nonneg hxarg, mul_div_assoc]
  have hsx0 : (0 : ℤ) ≤ (t.api_to_screen x y).1 := by
    rw [hsx]
    exact Int.floor_nonneg.mpr (by positivity)
  have hbackx : (t.screen_to_api (t.api_to_screen x y).1 (t.api_to_screen x y).2).1 =
      ⌊((⌊(x : ℚ) * (t.x_scale / t.dpi_scale)⌋ : ℚ)) / (t.x_scale / t.dpi_scale)⌋ := by
    rw [CoordinateTranslator.screen_to_api]
    show pyInt _ = _
    have harg0 : (0 : ℚ) ≤ ((t.api_to_screen x y).1 : ℚ) * t.dpi_scale / t.x_scale := by
      have : (0 : ℚ) ≤ ((t.api_to_screen x y).1 : ℚ) := by exact_mod_cast hsx0
      positivity
    rw [pyInt_of_nonneg harg0, hsx]
    congr 1
    field_simp
  have hx1 := floor_scale_round_trip (t.x_scale / t.dpi_scale) hrx x hx0
  -- the y component
  have hyarg : (0 : ℚ) ≤ (y : ℚ) * t.y_scale / t.dpi_scale := by positivity
  have hsy : (t.api_to_screen x y).2 = ⌊(y : ℚ) * (t.y_scale / t.dpi_scale)⌋ + t.taskbar_offset := by
    rw [CoordinateTranslator.api_to_screen]
    show pyInt _ + _ = _
    rw [pyInt_of_nonneg hyarg, mul_div_assoc]
  have hbacky : (t.screen_to_api (t.api_to_screen x y).1 (t.api_to_screen x y).2).2 =
      ⌊((⌊(y : ℚ) * (t.y_scale / t.dpi_scale)⌋ : ℚ)) / (t.y_scale / t.dpi_scale)⌋ := by
    rw [CoordinateTranslator.screen_to_api]
    show pyInt _ = _
    have hfloor0 : (0 : ℤ) ≤ ⌊(y : ℚ) * (t.y_scale / t.dpi_scale)⌋ :=
      Int.floor_nonneg.mpr (by positivity)
    have hsub : ((t.api_to_screen x y).2 - t.taskbar_offset) =
        ⌊(y : ℚ) * (t.y_scale / t.dpi_scale)⌋ := by
      rw [hsy]; ring
    rw [hsub]
    have harg0 : (0 : ℚ) ≤ ((⌊(y : ℚ) * (t.y_scale / t.dpi_scale)⌋ : ℤ) : ℚ) * t.dpi_scale / t.y_scale := by
      have : (0 : ℚ) ≤ ((⌊(y : ℚ) * (t.y_scale / t.dpi_scale)⌋ : ℤ) : ℚ) := by
        exact_mod_cast hfloor0
      positivity
    rw [pyInt_of_nonneg harg0]
    congr 1
    field_simp
  have hy1 := floor_scale_round_trip (t.y_scale / t.dpi_scale) hry y hy0
  constructor
  · rw [hbackx]; exact hx1
  · rw [hbacky]; exact hy1

/-- The geometry of claim C6: dpi 1.25, taskbar offset 40, physical
1920×1080, logical 1366×768 (the 16:9 preset). -/
def exampleTranslator : CoordinateTranslator :=
  { dpi_scale := 5 / 4, taskbar_offset := 40, physical_width := 1920,
    physical_height := 1080, target_width := 1366, target_height := 768 }

theorem C2_round_trip_within_one_witness :
    ((100 : ℤ) - 1 ≤ (exampleTranslator.screen_to_api
        (exampleTranslator.api_to_screen 100 100).1
        (exampleTranslator.api_to_screen 100 100).2).1 ∧
      (exampleTranslator.screen_to_api
        (exampleTranslator.api_to_screen 100 100).1
        (exampleTranslator.api_to_screen 100 100).2).1 ≤ 100) ∧
    ((100 : ℤ) - 1 ≤ (exampleTranslator.screen_to_api
        (exampleTranslator.api_to_screen 100 100).1
        (exampleTranslator.api_to_screen 100 100).2).2 ∧
      (exampleTranslator.screen_to_api
        (exampleTranslator.api_to_screen 100 100).1
        (exampleTranslator.api_to_screen 100 100).2).2 ≤ 100) :=
  C2_round_trip_within_one exampleTranslator 100 100
    (by norm_num [exampleTranslator])
    (by norm_num [exampleTranslator, CoordinateTranslator.x_scale])
    (by norm_num [exampleTranslator, CoordinateTranslator.y_scale])
    (by norm_num) (by norm_num)
    (by norm_num [exampleTranslator]) (by norm_num [exampleTranslator])

/-- Claim C6: with dpi_scale 1.25, taskbar offset 40, physical 1920×1080 and
logical 1366×768, api_to_screen(100, 100) = (112, 152), the truncated value
of (100·1920/1366/1.25, 100·1080/768/1.25 + 40). -/
theorem C6_coordinate_example :
    exampleTranslator.api_to_screen 100 100 = (112, 152) ∧
    (112 : ℤ) = pyInt (100 * ((1920 : ℚ) / 1366) / (5 / 4)) ∧
    (152 : ℤ) = pyInt (100 * ((1080 : ℚ) / 768) / (5 / 4)) + 40 := by
  have e1 : (100 : ℚ) * exampleTranslator.x_scale / exampleTranslator.dpi_scale
      = 76800 / 683 := by
    norm_num [exampleTranslator, CoordinateTranslator.x_scale]
  have e2 : (100 : ℚ) * exampleTranslator.y_scale / exampleTranslator.dpi_scale
      = 225 / 2 := by
    norm_num [exampleTranslator, CoordinateTranslator.y_scale]
  refine ⟨?_, ?_, ?_⟩
  · show (pyInt ((100 : ℚ) * exampleTranslator.x_scale / exampleTranslator.dpi_scale),
        pyInt ((100 : ℚ) * exampleTranslator.y_scale / exampleTranslator.dpi_scale)
          + exampleTranslator.taskbar_offset) = (112, 152)
    rw [e1, e2, pyInt_of_nonneg (by norm_num), pyInt_of_nonneg (by norm_num)]
    norm_num [exampleTranslator]
  · rw [show (100 : ℚ) * (1920 / 1366) / (5 / 4) = 76800 / 683 by norm_num]
    rw [pyInt_of_nonneg (by norm_num)]
    norm_num
  · rw [show (100 : ℚ) * (1080 / 768) / (5 / 4) = 225 / 2 by norm_num]
    rw [pyInt_of_nonneg (by norm_num)]
    norm_num

/-! ### loop.py : _maybe_filter_to_n_most_recent_images (C1, C7) -/

/-- A content block: a dict with a "type" key (`ty`) and its payload
(`data`); the filter classifies a block as an image iff its type is
"image_url". -/
structure Block where
  ty : String
  data : String
deriving Repr, DecidableEq

/-- `isinstance(content, dict) and content.get("type") == "image_url"`. -/
def Block.isImage (b : Block) : Bool :=
  b.ty == "image_url"

/-- A message's "content" value: either a plain string or a list of blocks
(`isinstance(message.get("content"), list)` distinguishes the two). -/
inductive Content where
  | str (s : String)
  | blocks (bs : List Block)
deriving Repr, DecidableEq

/-- A message dict: role, content, and the extra keys used by tool
messages. -/
structure Message where
  role : String
  content : Content
  name : Option String := none
  tool_call_id : Option String := none
deriving Repr, DecidableEq

/-- The substitute message the filter appends for a message whose content
became empty: `{"role": "user", "content": [{"type": "text",
"text": "ignore this"}]}`. -/
def placeholderMessage : Message :=
  { role := "user", content := Content.blocks [{ ty := "text", data := "ignore this" }] }

/-- The inner block loop of _maybe_filter_to_n_most_recent_images: threads
the images_seen counter through a message's blocks in forward order,
keeping an image only while `images_seen < images_to_keep` and keeping
every non-image block. -/
def filterBlocks (keep : Nat) : Nat → List Block → Nat × List Block
  | seen, [] => (seen, [])
  | seen, b :: bs =>
    if b.isImage then
      if seen < keep then
        let r := filterBlocks keep (seen + 1) bs
        (r.1, b :: r.2)
      else filterBlocks keep seen bs
    else
      let r := filterBlocks keep seen bs
      (r.1, b :: r.2)

/-- The body of the outer message loop for one message: non-list content
passes through unchanged; list content is filtered, and a message whose
new content is empty is replaced by the placeholder message. -/
def filterOne (keep seen : Nat) (m : Message) : Nat × Message :=
  match m.content with
  | Content.str _ => (seen, m)
  | Content.blocks bs =>
    let r := filterBlocks keep seen bs
    (r.1, if r.2.isEmpty then placeholderMessage
          else { m with content := Content.blocks r.2 })

/-- The outer loop over `reversed(messages)`, threading images_seen. -/
def filterRevGo (keep : Nat) : Nat → List Message → List Message
  | _, [] => []
  | seen, m :: ms =>
    (filterOne keep seen m).2 :: filterRevGo keep (filterOne keep seen m).1 ms

/-- loop.py _maybe_filter_to_n_most_recent_images: no-op for
`images_to_keep <= 0` (or None), otherwise scan from newest to oldest and
reverse the accumulated result back to original order. -/
def maybe_filter_to_n_most_recent_images (messages : List Message)
    (images_to_keep : Int) : List Message :=
  if images_to_keep ≤ 0 then messages
  else (filterRevGo images_to_keep.toNat 0 messages.reverse).reverse

/-- The image blocks of one content value, in block order. -/
def contentImages : Content → List Block
  | Content.str _ => []
  | Content.blocks bs => bs.filter Block.isImage

/-- The non-image blocks of one content value, in block order. -/
def contentNonImages : Content → List Block
  | Content.str _ => []
  | Content.blocks bs => bs.filter (fun b => !b.isImage)

/-- All image blocks of a history, in original order. -/
def flatImages : List Message → List Block
  | [] => []
  | m :: ms => contentImages m.content ++ flatImages ms

/-- All non-image blocks of a history, in original order. -/
def flatNonImages : List Message → List Block
  | [] => []
  | m :: ms => contentNonImages m.content ++ flatNonImages ms

/-- The image blocks of a history in the filter's scan order: messages from
newest to oldest, blocks forward within each message. -/
def scanImages (ms : List Message) : List Block :=
  flatImages ms.reverse

lemma flatImages_append (l₁ l₂ : List Message) :
    flatImages (l₁ ++ l₂) = flatImages l₁ ++ flatImages l₂ := by
  induction l₁ with
  | nil => rfl
  | cons m ms ih => simp [flatImages, ih]

lemma flatImages_reverse_length (l : List Message) :
    (flatImages l.reverse).length = (flatImages l).length := by
  induction l with
  | nil => rfl
  | cons m ms ih =>
    rw [List.reverse_cons, flatImages_append]
    simp [flatImages, ih]
    omega

lemma filterBlocks_images (keep : Nat) (bs : List Block) : ∀ seen,
    (filterBlocks keep seen bs).2.filter Block.isImage
      = (bs.filter Block.isImage).take (keep - seen) := by
  induction bs with
  | nil => intro seen; simp [filterBlocks]
  | cons b bs ih =>
    intro seen
    by_cases hb : b.isImage
    · by_cases hs : seen < keep
      · simp only [filterBlocks, hb, if_pos, hs, if_true]
        simp only [List.filter_cons, hb, ih (seen + 1)]
        have : keep - seen = (keep - (seen + 1)) + 1 := by omega
        rw [this]
        simp [List.take_succ_cons]
      · simp only [filterBlocks, hb, if_true, hs, if_false]
        have hks : keep - seen = 0 := by omega
        simp only [List.filter_cons, hb, ih seen, hks, List.take_zero]
    · simp only [filterBlocks, hb, Bool.false_eq_true, if_false]
      simp only [List.filter_cons, hb, Bool.false_eq_true, if_false, ih seen]

lemma filterBlocks_seen (keep : Nat) (bs : List Block) : ∀ seen, seen ≤ keep →
    (filterBlocks keep seen bs).1
      = min (seen + (bs.filter Block.isImage).length) keep := by
  induction bs with
  | nil => intro seen h; simp [filterBlocks]; omega
  | cons b bs ih =>
    intro seen h
    by_cases hb : b.isImage
    · by_cases hs : seen < keep
      · simp only [filterBlocks, hb, if_true, hs]
        rw [ih (seen + 1) (by omega)]
        simp only [List.filter_cons, hb, if_pos, List.length_cons]
        omega
      · simp only [filterBlocks, hb, if_true, hs, if_false]
        rw [ih seen h]
        simp only [List.filter_cons, hb, if_pos, List.length_cons]
        omega
    · simp only [filterBlocks, hb, Bool.false_eq_true, if_false]
      rw [ih seen h]
      simp only [List.filter_cons, hb, Bool.false_eq_true, if_false]

lemma filterBlocks_nonImages (keep : Nat) (bs : List Block) : ∀ seen,
    (filterBlocks keep seen bs).2.filter (fun b => !b.isImage)
      = bs.filter (fun b => !b.isImage) := by
  induction bs with
  | nil => intro seen; simp [filterBlocks]
  | cons b bs ih =>
    intro seen
    by_cases hb : b.isImage
    · by_cases hs : seen < keep
      · simp only [filterBlocks, hb, if_true, hs]
        simp [List.filter_cons, hb, ih (seen + 1)]
      · simp only [filterBlocks, hb, if_true, hs, if_false]
        simp [List.filter_cons, hb, ih seen]
    · simp only [filterBlocks, hb, Bool.false_eq_true, if_false]
      simp [List.filter_cons, hb, ih seen]

lemma filterOne_images (keep seen : Nat) (m : Message) :
    contentImages ((filterOne keep seen m).2).content
      = (contentImages m.content).take (keep - seen) := by
  rcases m with ⟨role, content, name, tid⟩
  cases content with
  | str s => simp [filterOne, contentImages]
  | blocks bs =>
    simp only [filterOne, contentImages]
    by_cases he : (filterBlocks keep seen bs).2.isEmpty
    · rw [if_pos he]
      have h2 : (filterBlocks keep seen bs).2 = [] := by
        rwa [List.isEmpty_iff] at he
      have := filterBlocks_images keep bs seen
      rw [h2] at this
      simp only [List.filter_nil] at this
      simp [placeholderMessage, contentImages, Block.isImage, ← this]
    · rw [if_neg he]
      exact filterBlocks_images keep bs seen

lemma filterOne_seen (keep seen : Nat) (m : Message) (h : seen ≤ keep) :
    (filterOne keep seen m).1
      = min (seen + (contentImages m.content).length) keep := by
  rcases m with ⟨role, content, name, tid⟩
  cases content with
  | str s => simp [filterOne, contentImages]; omega
  | blocks bs =>
    simp only [filterOne, contentImages]
    exact filterBlocks_seen keep bs seen h

lemma filterOne_nonImages (keep seen : Nat) (m : Message) :
    (contentNonImages m.content).Sublist
      (contentNonImages ((filterOne keep seen m).2).content) := by
  rcases m with ⟨role, content, name, tid⟩
  cases content with
  | str s => simp [filterOne]
  | blocks bs =>
    simp only [filterOne, contentNonImages]
    by_cases he : (filterBlocks keep seen bs).2.isEmpty
    · rw [if_pos he]
      have h2 : (filterBlocks keep seen bs).2 = [] := by
        rwa [List.isEmpty_iff] at he
      have := filterBlocks_nonImages keep bs seen
      rw [h2] at this
      simp only [List.filter_nil] at this
      rw [← this]
      exact List.nil_sublist _
    · rw [if_neg he]
      show (List.filter (fun b => !b.isImage) bs).Sublist
        (List.filter (fun b => !b.isImage) (filterBlocks keep seen bs).2)
      rw [filterBlocks_nonImages keep bs seen]

lemma filterRevGo_images (keep : Nat) (ms : List Message) : ∀ seen, seen ≤ keep →
    flatImages (filterRevGo keep seen ms) = (flatImages ms).take (keep - seen) := by
  induction ms with
  | nil => intro seen _; simp [filterRevGo, flatImages]
  | cons m ms ih =>
    intro seen h
    simp only [filterRevGo, flatImages]
    have hseen := filterOne_seen keep seen m h
    have hle : (filterOne keep seen m).1 ≤ keep := by
      rw [hseen]; exact min_le_right _ _
    have harg : keep - (filterOne keep seen m).1
        = keep - seen - (contentImages m.content).length := by
      rw [hseen, Nat.min_def]
      split <;> omega
    rw [filterOne_images keep seen m, ih (filterOne keep seen m).1 hle, harg,
      List.take_append_eq_append_take]

lemma filterRevGo_forall₂ (keep : Nat) (ms : List Message) : ∀ seen,
    List.Forall₂ (fun m m' => ∃ s, m' = (filterOne keep s m).2) ms
      (filterRevGo keep seen ms) := by
  induction ms with
  | nil => intro seen; exact List.Forall₂.nil
  | cons m ms ih =>
    intro seen
    exact List.Forall₂.cons ⟨seen, rfl⟩ (ih (filterOne keep seen m).1)

lemma forall₂_flatNonImages {l₁ l₂ : List Message}
    (h : List.Forall₂ (fun m m' =>
      (contentNonImages m.content).Sublist (contentNonImages m'.content)) l₁ l₂) :
    (flatNonImages l₁).Sublist (flatNonImages l₂) := by
  induction h with
  | nil => exact List.Sublist.refl _
  | cons hr _ ih => exact List.Sublist.append hr ih

/-- Claim C1 as stated is false: the filter's inner loop walks a message's
blocks in forward order while the outer loop walks messages newest-first,
so when the retention cut falls inside a multi-image message the earliest
image of that message is kept instead of the most recent one. With a single
message holding images A then B and limit 1, the code keeps A although the
most recent image is B. -/
theorem C1_most_recent_counterexample :
    flatImages (maybe_filter_to_n_most_recent_images
        [{ role := "user",
           content := Content.blocks
             [{ ty := "image_url", data := "A" }, { ty := "image_url", data := "B" }] }] 1)
      = [{ ty := "image_url", data := "A" }] ∧
    (flatImages
        [{ role := "user",
           content := Content.blocks
             [{ ty := "image_url", data := "A" }, { ty := "image_url", data := "B" }] }]).drop
      ((flatImages
        [{ role := "user",
           content := Content.blocks
             [{ ty := "image_url", data := "A" }, { ty := "image_url", data := "B" }] }]).length - 1)
      = [{ ty := "image_url", data := "B" }] ∧
    ({ ty := "image_url", data := "A" } : Block) ≠ { ty := "image_url", data := "B" } := by
  refine ⟨by decide, by decide, by decide⟩

/-- Claim C1, amended: for every history with k image blocks and limit
n > 0, the filtered history contains exactly min(k, n) image blocks; the
retained images are the first n images reached when scanning messages from
newest to oldest with each message's blocks in forward order (which are the
n most recent images whenever the message at the retention boundary holds
at most one image); and every non-image block of the input is preserved
verbatim, in order. -/
theorem C1_filter_images_amended (msgs : List Message) (n : Int) (hn : 0 < n) :
    (flatImages (maybe_filter_to_n_most_recent_images msgs n)).length
      = min (flatImages msgs).length n.toNat ∧
    scanImages (maybe_filter_to_n_most_recent_images msgs n)
      = (scanImages msgs).take n.toNat ∧
    (flatNonImages msgs).Sublist
      (flatNonImages (maybe_filter_to_n_most_recent_images msgs n)) := by
  have hng : ¬ n ≤ 0 := by omega
  have hout : maybe_filter_to_n_most_recent_images msgs n
      = (filterRevGo n.toNat 0 msgs.reverse).reverse := by
    rw [maybe_filter_to_n_most_recent_images, if_neg hng]
  have hscan : flatImages (filterRevGo n.toNat 0 msgs.reverse)
      = (flatImages msgs.reverse).take n.toNat := by
    have := filterRevGo_images n.toNat msgs.reverse 0 (by omega)
    simpa using this
  refine ⟨?_, ?_, ?_⟩
  · rw [hout, flatImages_reverse_length, hscan, List.length_take,
      flatImages_reverse_length]
    omega
  · rw [hout, scanImages, List.reverse_reverse, hscan, scanImages]
  · rw [hout]
    have h₂ := filterRevGo_forall₂ n.toNat msgs.reverse 0
    have h₃ : List.Forall₂ (fun m m' => ∃ s, m' = (filterOne n.toNat s m).2)
        msgs (filterRevGo n.toNat 0 msgs.reverse).reverse := by
      have := List.forall₂_reverse_iff.mpr h₂
      rwa [List.reverse_reverse] at this
    refine forall₂_flatNonImages (h₃.imp ?_)
    rintro m m' ⟨s, rfl⟩
    exact filterOne_nonImages n.toNat s m

/-- A small concrete history: an older message with an image and a text
block, then a newer message with one image. -/
def exampleHistory : List Message :=
  [{ role := "user",
     content := Content.blocks
       [{ ty := "image_url", data := "old" }, { ty := "text", data := "note" }] },
   { role := "user",
     content := Content.blocks [{ ty := "image_url", data := "new" }] }]

theorem C1_filter_images_amended_witness :
    (flatImages (maybe_filter_to_n_most_recent_images exampleHistory 1)).length
      = min (flatImages exampleHistory).length (1 : Int).toNat ∧
    scanImages (maybe_filter_to_n_most_recent_images exampleHistory 1)
      = (scanImages exampleHistory).take (1 : Int).toNat ∧
    (flatNonImages exampleHistory).Sublist
      (flatNonImages (maybe_filter_to_n_most_recent_images exampleHistory 1)) :=
  C1_filter_images_amended exampleHistory 1 (by norm_num)

/-- Claim C7 as stated is false: a message whose content list becomes empty
is not dropped; the code substitutes the placeholder user message
`[{"type": "text", "text": "ignore this"}]`. With two single-image messages
and limit 1 the output still has two messages, the first being the
placeholder. -/
theorem C7_drop_counterexample :
    maybe_filter_to_n_most_recent_images
        [{ role := "user", content := Content.blocks [{ ty := "image_url", data := "A" }] },
         { role := "user", content := Content.blocks [{ ty := "image_url", data := "B" }] }] 1
      = [placeholderMessage,
         { role := "user", content := Content.blocks [{ ty := "image_url", data := "B" }] }] ∧
    (maybe_filter_to_n_most_recent_images
        [{ role := "user", content := Content.blocks [{ ty := "image_url", data := "A" }] },
         { role := "user", content := Content.blocks [{ ty := "image_url", data := "B" }] }] 1).length
      ≠ 1 := by
  refine ⟨by decide, by decide⟩

/-- Claim C7, amended: for every history and limit n > 0, no message is
dropped: the filtered history has exactly one message per input message,
and each output message is the filterOne image of its input message — the
input unchanged for non-list content, the input with its filtered block
list when that list is non-empty, and the placeholder "ignore this" user
message when every block of the message was an evicted image. -/
theorem C7_empty_messages_replaced (msgs : List Message) (n : Int) (hn : 0 < n) :
    (maybe_filter_to_n_most_recent_images msgs n).length = msgs.length ∧
    List.Forall₂ (fun m m' => ∃ s, m' = (filterOne n.toNat s m).2) msgs
      (maybe_filter_to_n_most_recent_images msgs n) := by
  have hng : ¬ n ≤ 0 := by omega
  have hout : maybe_filter_to_n_most_recent_images msgs n
      = (filterRevGo n.toNat 0 msgs.reverse).reverse := by
    rw [maybe_filter_to_n_most_recent_images, if_neg hng]
  have h₂ := filterRevGo_forall₂ n.toNat msgs.reverse 0
  have h₃ : List.Forall₂ (fun m m' => ∃ s, m' = (filterOne n.toNat s m).2)
      msgs (filterRevGo n.toNat 0 msgs.reverse).reverse := by
    have := List.forall₂_reverse_iff.mpr h₂
    rwa [List.reverse_reverse] at this
  rw [hout]
  exact ⟨h₃.length_eq.symm ▸ rfl, h₃⟩

/-- A history in which the older message's only block is an evicted image. -/
def evictedHistory : List Message :=
  [{ role := "user", content := Content.blocks [{ ty := "image_url", data := "x" }] },
   { role := "user", content := Content.blocks [{ ty := "image_url", data := "y" }] }]

theorem C7_empty_messages_replaced_witness :
    (maybe_filter_to_n_most_recent_images evictedHistory 1).length
      = evictedHistory.length ∧
    List.Forall₂ (fun m m' => ∃ s, m' = (filterOne (1 : Int).toNat s m).2) evictedHistory
      (maybe_filter_to_n_most_recent_images evictedHistory 1) :=
  C7_empty_messages_replaced evictedHistory 1 (by norm_num)

/-! ### loop.py : one iteration of sampling_loop (C4) -/

/-- A content block of the parsed model response (_response_to_params):
either a text block or a tool_use block. -/
inductive RespBlock where
  | text (t : String)
  | toolUse (name : String) (input : ToolInput) (id : String)
deriving Repr, DecidableEq

/-- The "content" value of an API tool result: a plain string for errors, a
block list otherwise. -/
inductive TRContent where
  | str (s : String)
  | blocks (bs : List Block)
deriving Repr, DecidableEq

/-- loop.py _make_api_tool_result's return value: the tool_result dict
fields (tool_use_id, is_error) plus the rendered content. -/
structure ApiToolResult where
  tool_use_id : String
  is_error : Bool
  content : TRContent
deriving Repr, DecidableEq

/-- Python truthiness of an Optional[str]: None and "" are falsy. -/
def pyTruthy (o : Option String) : Bool :=
  !(o.getD "" == "")

/-- loop.py _maybe_prepend_system_tool_result. -/
def maybe_prepend_system_tool_result (result : ToolResult) (result_text : String) :
    String :=
  if pyTruthy result.system then
    "<system>" ++ result.system.getD "" ++ "</system>\n" ++ result_text
  else result_text

/-- loop.py _make_api_tool_result: an error result becomes an is_error
string content; otherwise a text block (when output is set) and an
image_url block (when base64_image is set). -/
def make_api_tool_result (result : ToolResult) (tool_use_id : String) : ApiToolResult :=
  if pyTruthy result.error then
    { tool_use_id := tool_use_id, is_error := true,
      content := TRContent.str
        (maybe_prepend_system_tool_result result (result.error.getD "")) }
  else
    { tool_use_id := tool_use_id, is_error := false,
      content := TRContent.blocks
        ((if pyTruthy result.output then
            [{ ty := "text",
               data := maybe_prepend_system_tool_result result (result.output.getD "") }]
          else []) ++
         (if pyTruthy result.base64_image then
            [{ ty := "image_url",
               data := "data:image/png;base64," ++ result.base64_image.getD "" }]
          else [])) }

/-- The json.dumps([item["tool_result"]]) string of the tool-role message
(ids assumed to need no JSON escaping). -/
def toolResultJson (tool_use_id : String) (is_error : Bool) : String :=
  "[\x7b\"type\": \"tool_result\", \"tool_use_id\": \"" ++ tool_use_id
    ++ "\", \"is_error\": " ++ (if is_error then "true" else "false") ++ "\x7d]"

/-- The per-result tool-role message appended by sampling_loop. -/
def toolMessage (item : ApiToolResult) : Message :=
  { role := "tool", name := some "computer", tool_call_id := some item.tool_use_id,
    content := Content.str (toolResultJson item.tool_use_id item.is_error) }

def trContentToContent : TRContent → Content
  | TRContent.str s => Content.str s
  | TRContent.blocks bs => Content.blocks bs

/-- The synthesizing user-role message carrying a tool result's content. -/
def userSynthMessage (item : ApiToolResult) : Message :=
  { role := "user", content := trContentToContent item.content }

/-- The `for content_block in response_params` loop: one ApiToolResult per
tool_use block, in response order; text blocks only hit the output
callback. -/
def runBlocks (tc : ToolCollection) : List RespBlock → List ApiToolResult
  | [] => []
  | RespBlock.text _ :: rest => runBlocks tc rest
  | RespBlock.toolUse name input id :: rest =>
    make_api_tool_result (tc.run name input) id :: runBlocks tc rest

/-- Whether an iteration returned the history (no tool use) or continues
with the extended history. -/
inductive LoopOutcome where
  | done (history : List Message)
  | continueLoop (history : List Message)
deriving Repr, DecidableEq

/-- One iteration of sampling_loop after a successful model call: append
the model message, run the tools, return if no tool results, else append
one tool-role message per result and the synthesizing user message. -/
def sampling_loop_iteration (tc : ToolCollection) (messages : List Message)
    (modelMessage : Message) (blocks : List RespBlock) : LoopOutcome :=
  if (runBlocks tc blocks).isEmpty then
    LoopOutcome.done (messages ++ [modelMessage])
  else
    LoopOutcome.continueLoop
      (messages ++ [modelMessage] ++ (runBlocks tc blocks).map toolMessage
        ++ [userSynthMessage ((runBlocks tc blocks).getLastD
            { tool_use_id := "", is_error := false, content := TRContent.str "" })])

/-- The tool_use blocks of a response, in response order. -/
def toolUses : List RespBlock → List (String × ToolInput × String)
  | [] => []
  | RespBlock.text _ :: rest => toolUses rest
  | RespBlock.toolUse name input id :: rest => (name, input, id) :: toolUses rest

lemma runBlocks_eq_map (tc : ToolCollection) (blocks : List RespBlock) :
    runBlocks tc blocks
      = (toolUses blocks).map (fun u => make_api_tool_result (tc.run u.1 u.2.1) u.2.2) := by
  induction blocks with
  | nil => rfl
  | cons b rest ih =>
    cases b with
    | text t => simpa [runBlocks, toolUses] using ih
    | toolUse name input id => simp [runBlocks, toolUses, ih]

/-- Claim C4: in each iteration, if the model response holds no tool-use
blocks the loop returns the history (with the model message appended);
otherwise it appends the model message, then exactly one tool-role message
per tool result — in the order the tool-use blocks appeared — then exactly
one user-role message carrying the last tool result's content, and
continues. -/
theorem C4_loop_iteration_structure (tc : ToolCollection) (messages : List Message)
    (modelMessage : Message) (blocks : List RespBlock) :
    runBlocks tc blocks
      = (toolUses blocks).map (fun u => make_api_tool_result (tc.run u.1 u.2.1) u.2.2) ∧
    (toolUses blocks = [] →
      sampling_loop_iteration tc messages modelMessage blocks
        = LoopOutcome.done (messages ++ [modelMessage])) ∧
    (toolUses blocks ≠ [] →
      sampling_loop_iteration tc messages modelMessage blocks
        = LoopOutcome.continueLoop
            (messages ++ [modelMessage]
              ++ ((toolUses blocks).map
                    (fun u => make_api_tool_result (tc.run u.1 u.2.1) u.2.2)).map toolMessage
              ++ [userSynthMessage
                    (((toolUses blocks).map
                        (fun u => make_api_tool_result (tc.run u.1 u.2.1) u.2.2)).getLastD
                      { tool_use_id := "", is_error := false, content := TRContent.str "" })])) := by
  refine ⟨runBlocks_eq_map tc blocks, fun h => ?_, fun h => ?_⟩
  · rw [sampling_loop_iteration, if_pos]
    rw [runBlocks_eq_map, h]
    rfl
  · rw [sampling_loop_iteration, if_neg, runBlocks_eq_map]
    rw [runBlocks_eq_map]
    simp only [List.isEmpty_eq_true, List.map_eq_nil_iff]
    exact h

/-- A response with one text block and one tool_use block, against the
raising one-tool collection. -/
def exampleBlocks : List RespBlock :=
  [RespBlock.text "hello", RespBlock.toolUse "computer" [] "toolu_1"]

theorem C4_loop_iteration_structure_witness :
    (toolUses exampleBlocks ≠ [] →
      sampling_loop_iteration exampleCollection [] placeholderMessage exampleBlocks
        = LoopOutcome.continueLoop
            ([] ++ [placeholderMessage]
              ++ ((toolUses exampleBlocks).map
                    (fun u => make_api_tool_result (exampleCollection.run u.1 u.2.1) u.2.2)).map toolMessage
              ++ [userSynthMessage
                    (((toolUses exampleBlocks).map
                        (fun u => make_api_tool_result (exampleCollection.run u.1 u.2.1) u.2.2)).getLastD
                      { tool_use_id := "", is_error := false, content := TRContent.str "" })])) ∧
    sampling_loop_iteration exampleCollection [] placeholderMessage exampleBlocks
      = LoopOutcome.continueLoop
          ([] ++ [placeholderMessage]
            ++ ((toolUses exampleBlocks).map
                  (fun u => make_api_tool_result (exampleCollection.run u.1 u.2.1) u.2.2)).map toolMessage
            ++ [userSynthMessage
                  (((toolUses exampleBlocks).map
                      (fun u => make_api_tool_result (exampleCollection.run u.1 u.2.1) u.2.2)).getLastD
                    { tool_use_id := "", is_error := false, content := TRContent.str "" })]) := by
  have h := (C4_loop_iteration_structure exampleCollection [] placeholderMessage
    exampleBlocks).2.2
  exact ⟨h, h (by decide)⟩

/-! ### tools/computer.py : ComputerTool.take_screenshot cascade (C5) -/

/-- One encoding of the cascade: the PNG dimensions and whether the image
was converted to grayscale first. -/
structure Candidate where
  width : Nat
  height : Nat
  grayscale : Bool
deriving Repr, DecidableEq

/-- tools/computer.py take_screenshot's compression_levels list, in order:
full PNG, half-resolution PNG, grayscale PNG, half-resolution grayscale
PNG, over the scaled (target-resolution) frame. -/
def compression_levels (w h : Nat) : List Candidate :=
  [{ width := w, height := h, grayscale := false },
   { width := w / 2, height := h / 2, grayscale := false },
   { width := w, height := h, grayscale := true },
   { width := w / 2, height := h / 2, grayscale := true }]

/-- The `for compress_method in compression_levels` loop: return the first
candidate whose encoded size fits the limit. `encodedSize` abstracts the
PNG encoder's output length on the captured frame. -/
def cascadeGo (encodedSize : Candidate → Nat) (maxSize : Nat) :
    List Candidate → Option Candidate
  | [] => none
  | c :: cs => if encodedSize c ≤ maxSize then some c else cascadeGo encodedSize maxSize cs

/-- tools/computer.py ComputerTool.take_screenshot, reduced to the choice
of encoding: try the cascade in order and fall back to
compression_levels[-1] when nothing fits. -/
def take_screenshot (encodedSize : Candidate → Nat) (w h : Nat) (maxSize : Nat) :
    Candidate :=
  match cascadeGo encodedSize maxSize (compression_levels w h) with
  | some c => c
  | none => { width := w / 2, height := h / 2, grayscale := true }

lemma cascadeGo_eq_find? (encodedSize : Candidate → Nat) (maxSize : Nat)
    (l : List Candidate) :
    cascadeGo encodedSize maxSize l = l.find? (fun c => encodedSize c ≤ maxSize) := by
  induction l with
  | nil => rfl
  | cons c cs ih =>
    by_cases h : encodedSize c ≤ maxSize
    · simp [cascadeGo, List.find?, h]
    · simp [cascadeGo, List.find?, h, ih]

/-- Claim C5: the codec evaluates the four encodings in the fixed order
(full PNG, half-resolution PNG, grayscale PNG, half-resolution grayscale
PNG) and returns the first whose encoded size fits the budget; when none
fits it returns the last (half-resolution grayscale) candidate regardless
of its size. -/
theorem C5_cascade_first_fit (encodedSize : Candidate → Nat) (w h maxSize : Nat) :
    take_screenshot encodedSize w h maxSize
      = ((compression_levels w h).find? (fun c => encodedSize c ≤ maxSize)).getD
          { width := w / 2, height := h / 2, grayscale := true } ∧
    ((∀ c ∈ compression_levels w h, maxSize < encodedSize c) →
      take_screenshot encodedSize w h maxSize
        = { width := w / 2, height := h / 2, grayscale := true }) := by
  constructor
  · rw [take_screenshot, cascadeGo_eq_find?]
    cases hf : (compression_levels w h).find? (fun c => encodedSize c ≤ maxSize) <;> rfl
  · intro hall
    rw [take_screenshot, cascadeGo_eq_find?]
    have : (compression_levels w h).find? (fun c => encodedSize c ≤ maxSize) = none := by
      rw [List.find?_eq_none]
      intro c hc
      simpa using hall c hc
    rw [this]

theorem C5_cascade_first_fit_witness :
    take_screenshot (fun c => if c.grayscale then 10 else 100) 1366 768 50
      = ((compression_levels 1366 768).find?
          (fun c => (if c.grayscale then 10 else 100) ≤ 50)).getD
          { width := 1366 / 2, height := 768 / 2, grayscale := true } ∧
    take_screenshot (fun _ => 100) 1366 768 50
      = { width := 1366 / 2, height := 768 / 2, grayscale := true } := by
  refine ⟨(C5_cascade_first_fit (fun c => if c.grayscale then 10 else 100) 1366 768 50).1, ?_⟩
  exact (C5_cascade_first_fit (fun _ => 100) 1366 768 50).2 (by decide)

/-! ### tools/computer.py : IconDetector and _smart_click (C8) -/

/-- A contour bounding box as returned by cv2.boundingRect, relative to the
region of interest: corner (x, y) and nonnegative width/height. -/
structure CvRect where
  x : Int
  y : Int
  w : Nat
  h : Nat
deriving Repr, DecidableEq

/-- tools/computer.py IconDetector: size bounds for icon candidates. -/
structure IconDetector where
  min_size : Nat := 16
  max_size : Nat := 64
deriving Repr, DecidableEq

/-- The size filter: both width and height within [min_size, max_size]. -/
def sizeOk (d : IconDetector) (r : CvRect) : Bool :=
  d.min_size ≤ r.w && r.w ≤ d.max_size && d.min_size ≤ r.h && r.h ≤ d.max_size

/-- A candidate's center: ROI corner plus box corner plus half the box
size (integer // division). -/
def rectCenter (x1 y1 : Int) (r : CvRect) : Int × Int :=
  (x1 + r.x + (r.w / 2 : Nat), y1 + r.y + (r.h / 2 : Nat))

/-- Squared euclidean distance. The code compares square roots; for the
integer centers involved, `dist < bound` iff `dist² < bound²`, so the
5.0-pixel initial tolerance and the running minimum are tracked squared
(initial 25). -/
def sqDist (a b : Int × Int) : Int :=
  (a.1 - b.1) ^ 2 + (a.2 - b.2) ^ 2

/-- The contour loop of find_icon_center: keep the qualifying candidate
whose center is strictly closest to the target, starting from the 5px
tolerance. -/
def findGo (d : IconDetector) (x1 y1 tx ty : Int) :
    List CvRect → Option (Int × Int) → Int → Option (Int × Int)
  | [], best, _ => best
  | r :: rs, best, minSq =>
    if sizeOk d r then
      if sqDist (rectCenter x1 y1 r) (tx, ty) < minSq then
        findGo d x1 y1 tx ty rs (some (rectCenter x1 y1 r))
          (sqDist (rectCenter x1 y1 r) (tx, ty))
      else findGo d x1 y1 tx ty rs best minSq
    else findGo d x1 y1 tx ty rs best minSq

/-- tools/computer.py IconDetector.find_icon_center, over the contour
boxes the opaque OpenCV pipeline produced for the ROI cropped at
(max(0, target - 2·max_size), …). -/
def find_icon_center (d : IconDetector) (contours : List CvRect)
    (target_x target_y : Int) : Option (Int × Int) :=
  findGo d (max 0 (target_x - 2 * (d.max_size : Int)))
    (max 0 (target_y - 2 * (d.max_size : Int))) target_x target_y contours none 25

/-- tools/computer.py ComputerTool._smart_click's click target: the
detected icon center when one is found, the original point otherwise. -/
def smart_click_target (d : IconDetector) (contours : List CvRect) (x y : Int) :
    Int × Int :=
  match find_icon_center d contours x y with
  | some c => c
  | none => (x, y)

lemma findGo_none (d : IconDetector) (x1 y1 tx ty : Int) (l : List CvRect) (m : Int)
    (h : ∀ r ∈ l, sizeOk d r = true → ¬ sqDist (rectCenter x1 y1 r) (tx, ty) < m) :
    findGo d x1 y1 tx ty l none m = none := by
  induction l with
  | nil => rfl
  | cons r rs ih =>
    have hr := h r (List.mem_cons_self r rs)
    by_cases hs : sizeOk d r = true
    · rw [findGo, if_pos hs, if_neg (hr hs)]
      exact ih (fun r' hr' => h r' (List.mem_cons_of_mem r hr'))
    · rw [findGo, if_neg hs]
      exact ih (fun r' hr' => h r' (List.mem_cons_of_mem r hr'))

/-- Claim C8: when no contour has a bounding box with both sides in
[min_size, max_size] whose center lies within the 5-pixel tolerance of the
target, find_icon_center returns None and the _smart_click target is
exactly the original input point. -/
theorem C8_identity_fallback (d : IconDetector) (contours : List CvRect) (x y : Int)
    (h : ∀ r ∈ contours, sizeOk d r = true →
      ¬ sqDist (rectCenter (max 0 (x - 2 * (d.max_size : Int)))
          (max 0 (y - 2 * (d.max_size : Int))) r) (x, y) < 25) :
    find_icon_center d contours x y = none ∧
    smart_click_target d contours x y = (x, y) := by
  have hnone : find_icon_center d contours x y = none := by
    rw [find_icon_center]
    exact findGo_none d _ _ x y contours 25 h
  refine ⟨hnone, ?_⟩
  rw [smart_click_target, hnone]

/-- Contours for the C8 witness: a box too large to be an icon, and an
icon-sized box whose center is far from the target. -/
def exampleContours : List CvRect :=
  [{ x := 0, y := 0, w := 200, h := 20 }, { x := 0, y := 0, w := 20, h := 20 }]

theorem C8_identity_fallback_witness :
    find_icon_center { min_size := 16, max_size := 64 } exampleContours 1000 1000 = none ∧
    smart_click_target { min_size := 16, max_size := 64 } exampleContours 1000 1000
      = (1000, 1000) :=
  C8_identity_fallback { min_size := 16, max_size := 64 } exampleContours 1000 1000
    (by decide)

end ComputerUseDemo
